import Mathlib

/-!
Shallow embedding of the ATS_scorer repository (src/scorer.py, src/matcher.py,
src/jd_ner.py, src/ner_resume_hybrid.py, src/llm_extractor.py) together with
theorems settling the specification claims.

Python floats are modelled by rationals; Python round(x, n) is modelled by
round-half-to-even on rationals.  External effects (the sentence-transformer
similarity model, the Groq LLM calls, the spaCy NER models, the current date)
are parameters of the embedded functions.  Python strings are Lean strings;
the regular-expression searches of the source are embedded as explicit
character-list scanners that follow the source patterns construct by
construct (leftmost non-overlapping matching, ordered alternation, greedy
optional parts with the backtracking the patterns need).
-/

namespace ATS

/-- Round-half-to-even to an integer, as Python's round does on exact values. -/
def rhe (q : ℚ) : ℤ :=
  if q - ⌊q⌋ < 1/2 then ⌊q⌋
  else if 1/2 < q - ⌊q⌋ then ⌊q⌋ + 1
  else if ⌊q⌋ % 2 = 0 then ⌊q⌋ else ⌊q⌋ + 1

/-- Python round(x, 2) on the rational model. -/
def pyRound2 (q : ℚ) : ℚ := (rhe (q * 100) : ℚ) / 100

/-- Python round(x, 1) on the rational model. -/
def pyRound1 (q : ℚ) : ℚ := (rhe (q * 10) : ℚ) / 10

/-- Value of the min_yoe / max_yoe fields: a number of years or "Not Found". -/
inductive YoeVal where
  | notFound : YoeVal
  | num : Nat → YoeVal
  deriving DecidableEq, Repr

/-- Experience sub-score of calculate_ats_score (src/scorer.py lines 36-50). -/
def yoe_component (jd_yoe : YoeVal) (resume_yoe : ℚ) : ℚ :=
  if jd_yoe = YoeVal.notFound ∨ resume_yoe = 0 then 15
  else
    match jd_yoe with
    | YoeVal.notFound => 15
    | YoeVal.num n =>
      if resume_yoe ≥ (n : ℚ) then 30
      else if resume_yoe ≥ (n : ℚ) * 0.75 then 25
      else if resume_yoe ≥ (n : ℚ) * 0.5 then 18
      else max 8 (resume_yoe / (n : ℚ) * 30)

/-- Component breakdown returned by calculate_ats_score. -/
structure Breakdown where
  skills_score : ℚ
  yoe_score : ℚ
  semantic_score : ℚ
  education_score : ℚ
  final_score : ℚ
  deriving DecidableEq, Repr

/-- Embedding of calculate_ats_score (src/scorer.py lines 22-76). -/
def calculate_ats_score (skill_match_pct semantic_sim : ℚ) (jd_yoe : YoeVal)
    (resume_yoe edu_score : ℚ) : ℚ × Breakdown :=
  let skills_score := skill_match_pct / 100 * 40
  let yoe_score := yoe_component jd_yoe resume_yoe
  let semantic_score := semantic_sim * 20
  let education_score := edu_score / 100 * 10
  let final_score := skills_score + yoe_score + semantic_score + education_score
  let final_score :=
    if skill_match_pct < 50 then
      pyRound2 (max (final_score - (50 - skill_match_pct) * 0.5) 0)
    else final_score
  (pyRound2 final_score,
   { skills_score := pyRound2 skills_score
     yoe_score := pyRound2 yoe_score
     semantic_score := pyRound2 semantic_score
     education_score := pyRound2 education_score
     final_score := pyRound2 final_score })

/-- Experience sub-score as the specification words it: 15 when the JD
requirement is missing or the resume experience is 0, else 30 / 25 / 18 at the
100% / 75% / 50% thresholds, and the proportional value floored at 8 below. -/
def yoe_component_spec (jd_yoe : YoeVal) (resume_yoe : ℚ) : ℚ :=
  match jd_yoe with
  | YoeVal.notFound => 15
  | YoeVal.num n =>
    if resume_yoe = 0 then 15
    else if resume_yoe ≥ (n : ℚ) then 30
    else if resume_yoe ≥ 0.75 * (n : ℚ) then 25
    else if resume_yoe ≥ 0.5 * (n : ℚ) then 18
    else max 8 ((resume_yoe / (n : ℚ)) * 30)

/-- Python str.lower on the character list (ASCII case mapping). -/
def pyLower (s : String) : String := String.mk (s.toList.map Char.toLower)

/-- Python str.upper on the character list (ASCII case mapping). -/
def pyUpper (s : String) : String := String.mk (s.toList.map Char.toUpper)

/-- Whitespace characters stripped by Python str.strip(). -/
def pySpaceChars : List Char := [' ', '\t', '\n', '\r', '\x0b', '\x0c']

/-- Python str.strip() with no arguments. -/
def pyTrim (s : String) : String :=
  String.mk (((s.toList.dropWhile (pySpaceChars.contains ·)).reverse.dropWhile
    (pySpaceChars.contains ·)).reverse)

/-- Python str.startswith on character lists. -/
def startsWithStr (s p : String) : Bool := p.toList.isPrefixOf s.toList

/-- Python ' '.join(list). -/
def joinSpace (l : List String) : String :=
  String.mk (List.intercalate [' '] (l.map String.toList))

/-- Occurrence of a character list as a contiguous segment of another. -/
def subOccurs (needle : List Char) : List Char → Bool
  | [] => needle.isEmpty
  | c :: rest => needle.isPrefixOf (c :: rest) || subOccurs needle rest

/-- Python substring containment, needle in hay. -/
def containsSub (hay needle : String) : Bool :=
  subOccurs needle.toList hay.toList

/-- Python int() truncation toward zero on the rational model. -/
def pyInt (q : ℚ) : ℤ := if 0 ≤ q then ⌊q⌋ else -⌊-q⌋

/-- Deterministic model of Python list(set(xs)) on string lists: duplicates
removed, first occurrence kept. -/
def pySet (l : List String) : List String :=
  l.foldl (fun acc x => if acc.contains x then acc else acc ++ [x]) []

/-- Python s.strip(chars): remove leading and trailing characters of the set. -/
def pyStrip (s : String) (chars : List Char) : String :=
  String.mk (((s.toList.dropWhile (fun c => chars.contains c)).reverse.dropWhile
    (fun c => chars.contains c)).reverse)

/-- Embedding of normalize_education (src/matcher.py lines 6-33). -/
def normalize_education (edu_list : List String) : Option String :=
  if edu_list = [] then none
  else if ["phd", "ph.d", "doctorate", "doctoral"].any
      (fun t => containsSub (pyLower (joinSpace edu_list)) t) then
    some "PhD"
  else if ["master", "masters", "m.tech", "m.e.", "m.s.", "mba",
      "postgraduate"].any (fun t => containsSub (pyLower (joinSpace edu_list)) t) then
    some "Masters"
  else if ["bachelor", "bachelors", "b.e.", "b.tech", "b.s.", "undergraduate",
      "graduate"].any (fun t => containsSub (pyLower (joinSpace edu_list)) t) then
    some "Bachelors"
  else if ["diploma", "associate"].any
      (fun t => containsSub (pyLower (joinSpace edu_list)) t) then
    some "Diploma"
  else some "Bachelors"

/-- Education hierarchy list of match_education (src/matcher.py line 124). -/
def eduLevels : List String := ["Diploma", "Bachelors", "Masters", "PhD"]

/-- Embedding of match_education (src/matcher.py lines 108-137).  The
try/except around list.index is modelled by the membership guard. -/
def match_education (resume_edu jd_edu : List String) : ℚ × String :=
  match normalize_education jd_edu with
  | none => (100, "No education requirement specified")
  | some jl =>
    match normalize_education resume_edu with
    | none => (50, "Education not found in resume")
    | some rl =>
      if rl ∈ eduLevels ∧ jl ∈ eduLevels then
        if eduLevels.indexOf rl ≥ eduLevels.indexOf jl then
          (100, rl ++ " meets " ++ jl ++ " requirement")
        else if eduLevels.indexOf rl = eduLevels.indexOf jl - 1 then
          (60, rl ++ " is one level below " ++ jl ++ " requirement")
        else
          (30, " " ++ rl ++ " does not meet " ++ jl ++ " requirement")
      else (50, "Unable to compare education levels")

/-- Numeric rank of a normalized education level in the order
Diploma < Bachelors < Masters < PhD, as the specification words it. -/
def edu_rank (level : String) : Nat :=
  if level = "Diploma" then 0
  else if level = "Bachelors" then 1
  else if level = "Masters" then 2
  else 3

/-- Education score as the specification words it: 100 when the JD list
normalizes to no level, 50 when the resume list normalizes to no level, else
100 when the resume level reaches the JD level, 60 one level below, 30 two or
more levels below. -/
def match_education_spec (resume_edu jd_edu : List String) : ℚ :=
  match normalize_education jd_edu with
  | none => 100
  | some jl =>
    match normalize_education resume_edu with
    | none => 50
    | some rl =>
      if edu_rank jl ≤ edu_rank rl then 100
      else if edu_rank jl = edu_rank rl + 1 then 60
      else 30

/-- Python skill.lower().strip() used by match_skills. -/
def cleanSkill (s : String) : String := pyTrim (pyLower s)

/-- Best-similarity fold of the semantic branch of match_skills
(src/matcher.py lines 75-91). -/
def bestSemantic (sim : String → String → ℚ) (used : List String)
    (jd_skill : String) (resume_skills : List String) : ℚ × Option String :=
  resume_skills.foldl
    (fun (b : ℚ × Option String) r =>
      if used.contains (cleanSkill r) then b
      else if sim jd_skill r > b.1 then (sim jd_skill r, some r) else b)
    (0, none)

/-- One iteration of the jd_skills loop of match_skills
(src/matcher.py lines 56-101).  State: matched, missing, used resume skills.
The unreachable crash of the source when the semantic threshold is met with no
candidate recorded is modelled as a missing skill. -/
def matchSkillStep (sim : String → String → ℚ) (resume_skills : List String)
    (st : List String × List String × List String) (jd_skill : String) :
    List String × List String × List String :=
  match st with
  | (matched, missing, used) =>
    match resume_skills.find? (fun r =>
        !(used.contains (cleanSkill r)) && (cleanSkill r == cleanSkill jd_skill)) with
    | some r =>
      (matched ++ [jd_skill ++ " ✓"], missing, used ++ [cleanSkill r])
    | none =>
      match bestSemantic sim used jd_skill resume_skills with
      | (best_similarity, best_resume_skill) =>
        match (if (0.75 : ℚ) ≤ best_similarity then best_resume_skill else none) with
        | some b =>
          (matched ++ [jd_skill ++ " ≈ " ++ b ++ " (" ++
             toString (pyInt (best_similarity * 100)) ++ "%)"],
           missing, used ++ [cleanSkill b])
        | none => (matched, missing ++ [jd_skill], used)

/-- Embedding of match_skills (src/matcher.py lines 36-106), with the
sentence-transformer cosine similarity as parameter sim. -/
def match_skills (sim : String → String → ℚ)
    (resume_skills jd_skills : List String) : ℚ × List String × List String :=
  if jd_skills = [] then (50, [], [])
  else if resume_skills = [] then (0, [], jd_skills)
  else
    let final := jd_skills.foldl (matchSkillStep sim resume_skills) ([], [], [])
    (pyRound2 ((final.1.length : ℚ) / (jd_skills.length : ℚ) * 100), final.1, final.2.1)

/-- Blacklist of validate_skills (src/llm_extractor.py lines 107-112). -/
def skillBlacklist : List String :=
  ["experience", "knowledge", "understanding", "ability", "working",
   "expertise", "proficiency", "familiarity", "background",
   "machine learning experience", "deep learning experience",
   "fine-tuning", "cloud platforms"]

/-- Embedding of validate_skills (src/llm_extractor.py lines 103-132). -/
def validate_skills (skills : List String) : List String :=
  skills.filter (fun skill =>
    let skill_lower := pyTrim (pyLower skill)
    !(skill.length > 30) &&
    !(skillBlacklist.any (fun term => containsSub skill_lower term)) &&
    !(containsSub skill_lower " in " || containsSub skill_lower " of " ||
      containsSub skill_lower " with "))

/-- Embedding of validate_education (src/llm_extractor.py lines 135-162) on
string entries; the dict branch of the source cannot arise from the string
lists this pipeline passes in. -/
def validate_education (education_list : List String) : List String :=
  education_list.filterMap (fun edu =>
    let edu_clean := pyTrim (pyStrip (pyTrim edu) ['\x27', '"', '\x7b', '\x7d'])
    if edu_clean.length > 60 then none
    else if startsWithStr edu_clean "\x7b" || containsSub (pyLower edu_clean) "institution" then
      none
    else some edu_clean)

/-- Embedding of cleanup_merged_entities (src/llm_extractor.py lines 165-222).
The external LLM reconciliation call is a parameter: ok with the parsed skills
and education lists on success, error on any failure. -/
def cleanup_merged_entities (llm_response : Except String (List String × List String))
    (ner_skills ner_education llm_skills llm_education : List String)
    (_original_text : String) : List String × List String :=
  match llm_response with
  | Except.ok (skills, education) =>
    (validate_skills skills, validate_education education)
  | Except.error _ =>
    (validate_skills (pySet ((ner_skills ++ llm_skills).filter (fun s => s != ""))),
     validate_education (pySet ((ner_education ++ llm_education).filter (fun s => s != ""))))

/-- Local fallback reconciliation as the specification words it: the set-union
of the NER-derived and LLM-derived lists, re-filtered through the same
validate_skills and validate_education filters. -/
def local_fallback_spec (ner_skills ner_education llm_skills llm_education : List String) :
    List String × List String :=
  (validate_skills (pySet ((ner_skills ++ llm_skills).filter (fun s => s != ""))),
   validate_education (pySet ((ner_education ++ llm_education).filter (fun s => s != ""))))

/-- Item prefixes discarded by the final clean-up pass of combined_extraction
(src/ner_resume_hybrid.py line 305). -/
def sectionPrefixes : List String :=
  ["EDUCATION", "SKILLS", "WORK", "COMPANY", "EXPERIENCE"]

/-- Final clean-up pass of combined_extraction (src/ner_resume_hybrid.py
lines 294-313) applied to one field, with the seen set of lowercased kept
items as accumulator. -/
def clean_field (seen : List String) : List String → List String
  | [] => []
  | item :: rest =>
    if item = "" then clean_field seen rest
    else if sectionPrefixes.any (fun p => startsWithStr (pyUpper (pyTrim item)) p) then
      clean_field seen rest
    else if seen.contains (pyLower (pyTrim item)) = false ∧ 1 < (pyTrim item).length then
      pyTrim item :: clean_field (pyLower (pyTrim item) :: seen) rest
    else clean_field seen rest

def isPySpace (c : Char) : Bool := pySpaceChars.contains c
def lowerList (cs : List Char) : List Char := cs.map Char.toLower

/-- Greedy \s* : drop leading whitespace. -/
def skipSp (cs : List Char) : List Char := cs.dropWhile isPySpace

/-- \s+ : require at least one whitespace character, greedy. -/
def sp1 (cs : List Char) : Option (List Char) :=
  match cs with
  | c :: rest => if isPySpace c then some (skipSp rest) else none
  | [] => none

/-- Exact literal match, returning the rest. -/
def litE (lit : String) (cs : List Char) : Option (List Char) :=
  if lit.toList.isPrefixOf cs then some (cs.drop lit.length) else none

/-- Case-insensitive literal match (literal given lowercase). -/
def litCI (lit : String) (cs : List Char) : Option (List Char) :=
  if lit.toList.isPrefixOf (lowerList (cs.take lit.length)) then
    some (cs.drop lit.length)
  else none

/-- Greedy \d+ with its numeric value. -/
def digitsAux : List Char → Nat → Nat × List Char
  | c :: rest, acc =>
    if c.isDigit then digitsAux rest (acc * 10 + (c.toNat - 48)) else (acc, c :: rest)
  | [], acc => (acc, [])

def takeDigits (cs : List Char) : Option (Nat × List Char) :=
  match cs with
  | c :: _ => if c.isDigit then some (digitsAux cs 0) else none
  | [] => none

/-- Exactly four digits, as \d{4}. -/
def take4Digits (cs : List Char) : Option (Nat × List Char) :=
  match cs with
  | a :: b :: c :: d :: rest =>
    if a.isDigit && b.isDigit && c.isDigit && d.isDigit then
      some ((a.toNat - 48) * 1000 + (b.toNat - 48) * 100 + (c.toNat - 48) * 10 +
        (d.toNat - 48), rest)
    else none
  | _ => none

/-- First alternative of a literal alternation that matches, in order. -/
def firstLit (lits : List String) (cs : List Char) : Option (List Char) :=
  lits.findSome? (fun l => litE l cs)

def firstLitCI (lits : List String) (cs : List Char) : Option (List Char) :=
  lits.findSome? (fun l => litCI l cs)

structure YoeClaim where
  min : Nat
  max : Option Nat
  is_range : Bool
  is_plus : Bool
  deriving DecidableEq, Repr

/-- years? : literal "year" with optional greedy "s". -/
def matchYearWord (cs : List Char) : Option (List Char) :=
  match litE "year" cs with
  | none => none
  | some r => some (match r with | 's' :: t => t | r' => r')

/-- Trailing (?:of|in|with|managing|working|programming)? of pattern 1 after
\s* : the space run is consumed either way, the word only when present. -/
def p1Trailing (cs : List Char) : List Char :=
  match firstLit ["of", "in", "with", "managing", "working", "programming"] (skipSp cs) with
  | some r => r
  | none => skipSp cs

/-- Pattern 1 of extract_yoe_from_jd (src/jd_ner.py line 127), matched at the
head of the lowercased text: digits, optional plus, optional connector,
optional second digit group, "years?", optional qualifier word.  Alternation
and the optional digit group backtrack in source order. -/
def matchPattern1 (cs : List Char) : Option (YoeClaim × List Char) :=
  match takeDigits cs with
  | none => none
  | some (n1, r1) =>
    let plusRes : Bool × List Char :=
      match r1 with
      | '+' :: t => (true, t)
      | r' => (false, r')
    let r3 := skipSp plusRes.2
    let tryFrom : List Char → Option ((Option Nat) × List Char) := fun r4 =>
      (match takeDigits (skipSp r4) with
        | some (n2, r5) =>
          match matchYearWord (skipSp r5) with
          | some r6 => some (some n2, p1Trailing r6)
          | none => none
        | none => none).orElse
      (fun _ =>
        match matchYearWord (skipSp r4) with
        | some r6 => some (none, p1Trailing r6)
        | none => none)
    let conns : List (List Char) :=
      (["to", "-", "–", "or"].filterMap (fun c => litE c r3)) ++ [r3]
    match conns.findSome? tryFrom with
    | some (maxv, rest) =>
      some (⟨n1, maxv, maxv.isSome, plusRes.1⟩, rest)
    | none => none

/-- Fueled leftmost non-overlapping scan, as re.finditer / re.findall. -/
def scanList {α : Type} (m : List Char → Option (α × List Char)) :
    Nat → List Char → List α
  | 0, _ => []
  | _ + 1, [] => []
  | fuel + 1, c :: rest =>
    match m (c :: rest) with
    | some (a, r) => a :: scanList m fuel r
    | none => scanList m fuel rest

/-- Pattern 2 (src/jd_ner.py line 145): minimum / minimum of / at least /
atleast, then a number or number word, optional plus, "years?".  Returns the
numeric value of the captured group. -/
def matchPattern2 (cs : List Char) : Option (Nat × List Char) :=
  let group : List Char → Option (Nat × List Char) := fun r =>
    (takeDigits r).orElse (fun _ =>
      (List.zip ["two", "three", "four", "five", "six", "seven", "eight", "nine", "ten"]
        [2, 3, 4, 5, 6, 7, 8, 9, 10]).findSome?
        (fun p => (litE p.1 r).map (fun r2 => (p.2, r2))))
  let after : List Char → Option (Nat × List Char) := fun r =>
    match sp1 r with
    | none => none
    | some r2 =>
      match group r2 with
      | none => none
      | some (v, r3) =>
        let r4 := skipSp r3
        let r5 := match r4 with | '+' :: t => t | r' => r'
        match matchYearWord (skipSp r5) with
        | some r6 => some (v, r6)
        | none => none
  let prefixes : List (Option (List Char)) :=
    [litE "minimum" cs,
     (litE "minimum" cs).bind (fun r => (sp1 r).bind (litE "of")),
     (litE "at" cs).bind (fun r => (sp1 r).bind (litE "least")),
     litE "atleast" cs]
  prefixes.findSome? (fun p => p.bind after)

/-- Pattern 3 (src/jd_ner.py line 163): digit range "X-Y years". -/
def matchPattern3 (cs : List Char) : Option (YoeClaim × List Char) :=
  match takeDigits cs with
  | none => none
  | some (n1, r1) =>
    match firstLit ["-", "–", "to"] (skipSp r1) with
    | none => none
    | some r2 =>
      match takeDigits (skipSp r2) with
      | none => none
      | some (n2, r3) =>
        match matchYearWord (skipSp r3) with
        | some r4 => some (⟨n1, some n2, true, false⟩, r4)
        | none => none

def isWordChar (c : Char) : Bool := c.isAlphanum || c = '_'

/-- Pattern 4 (src/jd_ner.py line 179): \b(two|...|ten)\s+years?, with the
word boundary checked against the character before the match. -/
def matchPattern4 (prev : Option Char) (cs : List Char) : Option (YoeClaim × List Char) :=
  match prev with
  | some p => if isWordChar p then none else matchPattern4Core cs
  | none => matchPattern4Core cs
where
  matchPattern4Core (cs : List Char) : Option (YoeClaim × List Char) :=
    match (List.zip ["two", "three", "four", "five", "six", "seven", "eight", "nine", "ten"]
        [2, 3, 4, 5, 6, 7, 8, 9, 10]).findSome?
        (fun p => (litE p.1 cs).map (fun r => (p.2, r))) with
    | none => none
    | some (v, r1) =>
      match sp1 r1 with
      | none => none
      | some r2 =>
        match matchYearWord r2 with
        | some r3 => some (⟨v, none, false, false⟩, r3)
        | none => none

/-- Prev-character-aware scan for patterns with a boundary or lookbehind. -/
def scanListPrev {α : Type} (m : Option Char → List Char → Option (α × List Char)) :
    Nat → Option Char → List Char → List α
  | 0, _, _ => []
  | _ + 1, _, [] => []
  | fuel + 1, prev, c :: rest =>
    match m prev (c :: rest) with
    | some (a, r) =>
      a :: scanListPrev m fuel ((( c :: rest).take ((c :: rest).length - r.length)).getLast? ) r
    | none => scanListPrev m fuel (some c) rest

/-- Pattern 5 (src/jd_ner.py line 190): "X years (required|preferred)". -/
def matchPattern5 (cs : List Char) : Option (YoeClaim × List Char) :=
  match takeDigits cs with
  | none => none
  | some (n, r1) =>
    match matchYearWord (skipSp r1) with
    | none => none
    | some r2 =>
      match litE "(" (skipSp r2) with
      | none => none
      | some r3 =>
        match firstLit ["required", "preferred"] r3 with
        | none => none
        | some r4 =>
          match litE ")" r4 with
          | some r5 => some (⟨n, none, false, false⟩, r5)
          | none => none

/-- Python str.replace, leftmost non-overlapping. -/
def replaceList (pat rep : List Char) : Nat → List Char → List Char
  | 0, cs => cs
  | _ + 1, [] => []
  | fuel + 1, c :: rest =>
    if pat.isPrefixOf (c :: rest) then
      rep ++ replaceList pat rep fuel ((c :: rest).drop pat.length)
    else c :: replaceList pat rep fuel rest

def pyReplace (s pat rep : String) : String :=
  String.mk (replaceList pat.toList rep.toList s.length s.toList)

/-- Escape-sequence unescaping at the start of extract_yoe_from_jd
(src/jd_ner.py lines 101-107). -/
def unescapeJd (s : String) : String :=
  pyReplace (pyReplace (pyReplace (pyReplace (pyReplace (pyReplace s
    "\\+" "+") "\\-" "-") "\\\x27" "\x27") "\\\"" "\"") "\\n" " ") "\\t" " "

/-- All experience claims accumulated by the five pattern families of
extract_yoe_from_jd over the lowercased unescaped text
(src/jd_ner.py lines 122-198). -/
def found_yoe (jd_text : String) : List YoeClaim :=
  let t := (pyLower (unescapeJd jd_text)).toList
  scanList matchPattern1 t.length t ++
  ((scanList matchPattern2 t.length t).filterMap
    (fun v => if v > 0 then some ⟨v, none, false, false⟩ else none)) ++
  scanList matchPattern3 t.length t ++
  scanListPrev matchPattern4 t.length none t ++
  scanList matchPattern5 t.length t

def natToStrAux : Nat → Nat → List Char
  | 0, _ => []
  | fuel + 1, n =>
    if n = 0 then [] else natToStrAux fuel (n / 10) ++ [Char.ofNat (48 + n % 10)]

/-- Decimal rendering of a natural number, as Python str(). -/
def natToStr (n : Nat) : String :=
  if n = 0 then "0" else String.mk (natToStrAux (n + 1) n)

structure YoeResult where
  min_yoe : YoeVal
  max_yoe : YoeVal
  is_range : Bool
  is_plus : Bool
  found : Bool
  all_found : List String
  deriving DecidableEq, Repr

/-- Python max(found_yoe, key=lambda x: x['min']): first element attaining the
maximal key. -/
def pyMaxByMin (h : YoeClaim) (t : List YoeClaim) : YoeClaim :=
  t.foldl (fun b x => if x.min > b.min then x else b) h

/-- Label of one claim in the all_found list (src/jd_ner.py line 220). -/
def claimLabel (x : YoeClaim) : String :=
  if x.is_range then
    natToStr x.min ++ "-" ++ (match x.max with | some m => natToStr m | none => "None")
  else if x.is_plus then natToStr x.min ++ "+"
  else natToStr x.min

def yoeNotFoundResult : YoeResult :=
  ⟨YoeVal.notFound, YoeVal.notFound, false, false, false, []⟩

/-- Embedding of extract_yoe_from_jd (src/jd_ner.py lines 83-221).  The
max_yoe field reproduces the Python truthiness test: a max of 0 also reads
as "Not Found". -/
def extract_yoe_from_jd (jd_text : String) : YoeResult :=
  if jd_text = "" then yoeNotFoundResult
  else
    match found_yoe jd_text with
    | [] => yoeNotFoundResult
    | c :: rest =>
      { min_yoe := YoeVal.num (pyMaxByMin c rest).min
        max_yoe :=
          match (pyMaxByMin c rest).max with
          | some m => if m = 0 then YoeVal.notFound else YoeVal.num m
          | none => YoeVal.notFound
        is_range := (pyMaxByMin c rest).is_range
        is_plus := (pyMaxByMin c rest).is_plus
        found := true
        all_found := (c :: rest).map claimLabel }

def maxMin (l : List YoeClaim) : Nat := l.foldl (fun a c => max a c.min) 0

/-- First index at which needle occurs, as Python str.find. -/
def findSubIdxAux (needle : List Char) : List Char → Nat → Option Nat
  | [], i => if needle.isEmpty then some i else none
  | c :: rest, i =>
    if needle.isPrefixOf (c :: rest) then some i else findSubIdxAux needle rest (i + 1)

def findSubIdx (needle hay : List Char) : Option Nat := findSubIdxAux needle hay 0

/-- First position at which the predicate matches the tail starting there. -/
def firstMatchPosAux (p : List Char → Bool) : List Char → Nat → Option Nat
  | [], _ => none
  | c :: rest, i => if p (c :: rest) then some i else firstMatchPosAux p rest (i + 1)

def firstMatchPos (p : List Char → Bool) (cs : List Char) : Option Nat :=
  firstMatchPosAux p cs 0

/-- Match of the end pattern newline newline [A-Z][A-Z\s]{10,}: at the head,
under re.IGNORECASE (so any ASCII letter). -/
def endRegex1At : List Char → Bool
  | '\n' :: '\n' :: c :: rest =>
    c.isAlpha &&
    decide (10 ≤ (rest.takeWhile (fun d => d.isAlpha || isPySpace d)).length) &&
    (match rest.drop (rest.takeWhile (fun d => d.isAlpha || isPySpace d)).length with
     | ':' :: _ => true
     | _ => false)
  | _ => false

/-- Match of the end pattern newline newline asterisks [A-Z][A-Z\s]{5,}
asterisks at the head, under re.IGNORECASE. -/
def endRegex2At : List Char → Bool
  | '\n' :: '\n' :: '*' :: '*' :: c :: rest =>
    c.isAlpha &&
    decide (5 ≤ (rest.takeWhile (fun d => d.isAlpha || isPySpace d)).length) &&
    (match rest.drop (rest.takeWhile (fun d => d.isAlpha || isPySpace d)).length with
     | '*' :: '*' :: _ => true
     | _ => false)
  | _ => false

/-- Section header literals of extract_requirements_section
(src/jd_ner.py lines 21-38), lowercased; the optional trailing colon of the
source patterns affects neither existence nor start of a match. -/
def sectionHeaderLits : List String :=
  ["education/experience", "education and experience",
   "you\x27ll bring these qualifications", "qualifications", "requirements",
   "required qualifications", "minimum qualifications", "basic qualifications",
   "experience", "skills, experience and requirements", "what you\x27ll bring",
   "required skills and experience", "minimum requirements",
   "required skills & experience", "required skills and experience",
   "key responsibilities"]

/-- Literal end-of-section markers (src/jd_ner.py lines 52-60), lowercased. -/
def endHeaderLits : List String :=
  ["physical demands", "physical requirements", "what to expect",
   "about the job", "what we offer", "benefits", "additional information",
   "additional requirements", "supervisory responsibilities"]

/-- End position of the requirements section: the earliest end-marker match in
the text after start, or the text length (src/jd_ner.py lines 63-70). -/
def computeSectionEnd (text : List Char) (start : Nat) : Nat :=
  let tail := text.drop start
  let cands :=
    (firstMatchPos endRegex1At tail).toList ++
    (firstMatchPos endRegex2At tail).toList ++
    endHeaderLits.filterMap (fun l => findSubIdx l.toList (lowerList tail))
  (cands.map (start + ·)).foldl min text.length

def extractReqAux (text : List Char) : List String → Option String
  | [] => none
  | h :: hs =>
    match findSubIdx h.toList (lowerList text) with
    | none => extractReqAux text hs
    | some start =>
      let endPos := computeSectionEnd text start
      let req := String.mk ((text.drop start).take (endPos - start))
      if 100 < (pyTrim req).length then some req else extractReqAux text hs

/-- Embedding of extract_requirements_section (src/jd_ner.py lines 14-80). -/
def extract_requirements_section (text : String) : Option String :=
  extractReqAux text.toList sectionHeaderLits

def c2JdText : String :=
  "Our story: the company has 30 years of history and a great team. QUALIFICATIONS: at least 2 years of python experience required for this role and a very strong sense of ownership in delivery."

/-- Month-name alternation of the date patterns (src/ner_resume_hybrid.py
line 58): each month as abbreviation plus optional greedy suffix, tried in
source order, case-insensitively; returns the matched name lowercased. -/
def monthAlts : List (String × String) :=
  [("jan", "uary"), ("feb", "ruary"), ("mar", "ch"), ("apr", "il"),
   ("may", ""), ("jun", "e"), ("jul", "y"), ("aug", "ust"),
   ("sep", "tember"), ("oct", "ober"), ("nov", "ember"), ("dec", "ember")]

def matchMonth (cs : List Char) : Option (String × List Char) :=
  monthAlts.findSome? (fun p =>
    match litCI (p.1 ++ p.2) cs with
    | some r => some (p.1 ++ p.2, r)
    | none => (litCI p.1 cs).map (fun r => (p.1, r)))

/-- months_map lookup with default (src/ner_resume_hybrid.py lines 20-25). -/
def monthNum (name : String) (dflt : Nat) : Nat :=
  match (List.zip ["jan", "january", "feb", "february", "mar", "march", "apr",
      "april", "may", "jun", "june", "jul", "july", "aug", "august", "sep",
      "september", "oct", "october", "nov", "november", "dec", "december"]
      [1, 1, 2, 2, 3, 3, 4, 4, 5, 6, 6, 7, 7, 8, 8, 9, 9, 10, 10, 11, 11, 12,
        12]).findSome? (fun p => if p.1 = name then some p.2 else none) with
  | some m => m
  | none => dflt

def expConnector (cs : List Char) : Option (List Char) :=
  firstLitCI ["to", "–", "-", "till"] cs

def presentWord (cs : List Char) : Option (List Char) :=
  firstLitCI ["present", "current", "till date", "now", "today"] cs

/-- Pattern 1 of extract_total_experience: "Month Year to Month Year". -/
def matchExpP1 (cs : List Char) : Option ((String × Nat × String × Nat) × List Char) :=
  match matchMonth cs with
  | none => none
  | some (m1, r1) =>
    match sp1 r1 with
    | none => none
    | some r2 =>
      match take4Digits r2 with
      | none => none
      | some (y1, r3) =>
        match expConnector (skipSp r3) with
        | none => none
        | some r4 =>
          match matchMonth (skipSp r4) with
          | none => none
          | some (m2, r5) =>
            match sp1 r5 with
            | none => none
            | some r6 =>
              match take4Digits r6 with
              | none => none
              | some (y2, r7) => some ((m1, y1, m2, y2), r7)

/-- Pattern 2 of extract_total_experience: "Month Year to Present". -/
def matchExpP2 (cs : List Char) : Option ((String × Nat) × List Char) :=
  match matchMonth cs with
  | none => none
  | some (m1, r1) =>
    match sp1 r1 with
    | none => none
    | some r2 =>
      match take4Digits r2 with
      | none => none
      | some (y1, r3) =>
        match expConnector (skipSp r3) with
        | none => none
        | some r4 =>
          match presentWord (skipSp r4) with
          | none => none
          | some r5 => some ((m1, y1), r5)

/-- Pattern 4 of extract_total_experience: "(?<!\w)Year to Present". -/
def matchExpP4 (prev : Option Char) (cs : List Char) : Option (Nat × List Char) :=
  match prev with
  | some p => if isWordChar p then none else matchExpP4Core cs
  | none => matchExpP4Core cs
where
  matchExpP4Core (cs : List Char) : Option (Nat × List Char) :=
    match take4Digits cs with
    | none => none
    | some (y, r1) =>
      match expConnector (skipSp r1) with
      | none => none
      | some r2 =>
        match presentWord (skipSp r2) with
        | none => none
        | some r3 => some (y, r3)

/-- Fueled span-collecting scan: each match with its character start and end
positions, leftmost non-overlapping. -/
def scanSpans {α : Type} (m : List Char → Option (α × List Char)) :
    Nat → Nat → List Char → List (α × Nat × Nat)
  | 0, _, _ => []
  | _ + 1, _, [] => []
  | fuel + 1, pos, c :: rest =>
    match m (c :: rest) with
    | some (a, r) =>
      (a, pos, pos + ((c :: rest).length - r.length)) ::
        scanSpans m fuel (pos + ((c :: rest).length - r.length)) r
    | none => scanSpans m fuel (pos + 1) rest

/-- Span scan with the previous character threaded for the lookbehind. -/
def scanSpansPrev {α : Type} (m : Option Char → List Char → Option (α × List Char)) :
    Nat → Nat → Option Char → List Char → List (α × Nat × Nat)
  | 0, _, _, _ => []
  | _ + 1, _, _, [] => []
  | fuel + 1, pos, prev, c :: rest =>
    match m prev (c :: rest) with
    | some (a, r) =>
      (a, pos, pos + ((c :: rest).length - r.length)) ::
        scanSpansPrev m fuel (pos + ((c :: rest).length - r.length))
          (((c :: rest).take ((c :: rest).length - r.length)).getLast?) r
    | none => scanSpansPrev m fuel (pos + 1) (some c) rest

/-- Experience section of a resume text (src/ner_resume_hybrid.py
lines 27-52): from the first experience keyword found (in list order) to the
earliest end keyword found at or after start + 10. -/
def expSection (text : String) : Option (List Char) :=
  match ["EXPERIENCE", "WORK EXPERIENCE", "EMPLOYMENT HISTORY"].findSome?
      (fun k => findSubIdx k.toList (pyUpper text).toList) with
  | none => none
  | some start =>
    let tU := (pyUpper text).toList
    let expEnd :=
      ((["EDUCATION", "PROJECTS", "SKILLS", "TECHNICAL SKILLS"].filterMap
        (fun k => (findSubIdx k.toList (tU.drop (start + 10))).map
          (fun i => start + 10 + i))).foldl min text.toList.length)
    some ((text.toList.drop start).take (expEnd - start))

/-- Month delta of a pattern-1 match (src/ner_resume_hybrid.py line 66). -/
def p1Months (v : String × Nat × String × Nat) : ℤ :=
  ((v.2.2.2 : ℤ) - (v.2.1 : ℤ)) * 12 +
    ((monthNum v.2.2.1 12 : ℤ) - (monthNum v.1 1 : ℤ))

def expP1Matches (sec : List Char) : List ((String × Nat × String × Nat) × Nat × Nat) :=
  scanSpans matchExpP1 sec.length 0 sec

/-- Spans recorded by pattern 1 for the overlap check: only those with a
positive month delta (src/ner_resume_hybrid.py lines 67-69). -/
def foundRanges (sec : List Char) : List (Nat × Nat) :=
  (expP1Matches sec).filterMap
    (fun m => if 0 < p1Months m.1 then some m.2 else none)

def totalP1 (sec : List Char) : ℤ :=
  ((expP1Matches sec).map
    (fun m => if 0 < p1Months m.1 then p1Months m.1 else 0)).sum

def p2Months (cy cm : ℤ) (v : String × Nat) : ℤ :=
  (cy - (v.2 : ℤ)) * 12 + (cm - (monthNum v.1 1 : ℤ))

def totalP2 (sec : List Char) (cy cm : ℤ) : ℤ :=
  ((scanSpans matchExpP2 sec.length 0 sec).map
    (fun m => if 0 < p2Months cy cm m.1 then p2Months cy cm m.1 else 0)).sum

def p4Months (cy cm : ℤ) (y : Nat) : ℤ := (cy - (y : ℤ)) * 12 + cm

/-- Pattern-4 total with the overlap suppression against found_ranges
(src/ner_resume_hybrid.py lines 86-94). -/
def totalP4 (sec : List Char) (cy cm : ℤ) : ℤ :=
  ((scanSpansPrev matchExpP4 sec.length 0 none sec).map
    (fun m =>
      if (foundRanges sec).any (fun r => decide (r.1 ≤ m.2.1) && decide (m.2.2 ≤ r.2)) then 0
      else if 0 < p4Months cy cm m.1 ∧ p4Months cy cm m.1 ≤ 600 then
        p4Months cy cm m.1
      else 0)).sum

/-- Embedding of extract_total_experience (src/ner_resume_hybrid.py
lines 13-103), with the current date as parameters. -/
def extract_total_experience (text : String) (cy cm : ℤ) : ℚ :=
  match expSection text with
  | none => 0
  | some sec =>
    let total_months := totalP1 sec + totalP2 sec cy cm + totalP4 sec cy cm
    let total_years := if 0 < total_months then pyRound1 ((total_months : ℚ) / 12) else 0
    if 50 < total_years then 0 else total_years


def maxMinFrom (a : Nat) (t : List YoeClaim) : Nat :=
  t.foldl (fun acc x => max acc x.min) a

end ATS

namespace ATS

theorem floor_le_rhe (q : ℚ) : ⌊q⌋ ≤ rhe q := by
  unfold rhe
  repeat' split
  all_goals omega

theorem rhe_le_ceil (q : ℚ) : rhe q ≤ ⌈q⌉ := by
  have hfc : ⌊q⌋ ≤ ⌈q⌉ := Int.floor_le_ceil q
  have hkey : q - ⌊q⌋ > 0 → ⌊q⌋ + 1 ≤ ⌈q⌉ := by
    intro hpos
    have h1 : (⌊q⌋ : ℚ) < q := by linarith
    have h2 : (⌊q⌋ : ℚ) < (⌈q⌉ : ℚ) := lt_of_lt_of_le h1 (Int.le_ceil q)
    have h3 : ⌊q⌋ < ⌈q⌉ := by exact_mod_cast h2
    omega
  unfold rhe
  split
  · exact hfc
  · rename_i hge
    push_neg at hge
    split
    · exact hkey (by linarith)
    · split
      · exact hfc
      · exact hkey (by linarith)

theorem rhe_nonneg {q : ℚ} (h : 0 ≤ q) : 0 ≤ rhe q := by
  have h1 : (0 : ℤ) ≤ ⌊q⌋ := Int.floor_nonneg.mpr h
  have h2 := floor_le_rhe q
  omega

theorem rhe_le_of_le {q : ℚ} {m : ℤ} (h : q ≤ m) : rhe q ≤ m := by
  have h1 : ⌈q⌉ ≤ m := Int.ceil_le.mpr h
  have h2 := rhe_le_ceil q
  omega

theorem rhe_intCast (k : ℤ) : rhe (k : ℚ) = k := by
  unfold rhe
  rw [Int.floor_intCast]
  norm_num

theorem pyRound2_nonneg {q : ℚ} (h : 0 ≤ q) : 0 ≤ pyRound2 q := by
  unfold pyRound2
  have h1 : (0 : ℤ) ≤ rhe (q * 100) := rhe_nonneg (by positivity)
  have h2 : (0 : ℚ) ≤ (rhe (q * 100) : ℚ) := by exact_mod_cast h1
  positivity

theorem pyRound2_le_100 {q : ℚ} (h : q ≤ 100) : pyRound2 q ≤ 100 := by
  unfold pyRound2
  have h1 : q * 100 ≤ ((10000 : ℤ) : ℚ) := by push_cast; linarith
  have h2 : rhe (q * 100) ≤ 10000 := rhe_le_of_le h1
  have h3 : ((rhe (q * 100) : ℤ) : ℚ) ≤ 10000 := by exact_mod_cast h2
  linarith

theorem pyRound2_idem (q : ℚ) : pyRound2 (pyRound2 q) = pyRound2 q := by
  unfold pyRound2
  have h : (rhe (q * 100) : ℚ) / 100 * 100 = (rhe (q * 100) : ℚ) := by ring
  rw [h, rhe_intCast]

theorem yoe_component_ge_8_of_found {n : Nat} {resume_yoe : ℚ}
    (h : resume_yoe ≠ 0) : 8 ≤ yoe_component (YoeVal.num n) resume_yoe := by
  unfold yoe_component
  simp only [h, or_false, reduceCtorEq, if_false]
  split
  · norm_num
  · split
    · norm_num
    · split
      · norm_num
      · exact le_max_left 8 _

theorem yoe_component_le_30 (jd : YoeVal) (resume_yoe : ℚ) :
    yoe_component jd resume_yoe ≤ 30 := by
  unfold yoe_component
  split
  · norm_num
  · match jd with
    | YoeVal.notFound => norm_num
    | YoeVal.num n =>
      simp only
      split
      · norm_num
      · split
        · norm_num
        · split
          · norm_num
          · rename_i h75 h50
            push_neg at h75 h50
            by_cases hn : (n : ℚ) = 0
            · rw [hn]
              simp
              norm_num
            · have hn' : (0 : ℚ) < n := lt_of_le_of_ne (by positivity) (Ne.symm hn)
              apply max_le
              · norm_num
              · have hhalf : resume_yoe / (n : ℚ) ≤ 1 / 2 := by
                  rw [div_le_div_iff₀ hn' (by norm_num)]
                  nlinarith
                nlinarith

theorem yoe_component_ge_8 (jd : YoeVal) (resume_yoe : ℚ) :
    8 ≤ yoe_component jd resume_yoe := by
  by_cases hj : jd = YoeVal.notFound
  · simp [yoe_component, hj]
    norm_num
  · by_cases hr : resume_yoe = 0
    · simp [yoe_component, hr]
      norm_num
    · match jd with
      | YoeVal.notFound => exact absurd rfl hj
      | YoeVal.num n => exact yoe_component_ge_8_of_found hr

/-- Claim C4: the experience sub-score of calculate_ats_score is exactly the
neutral-15 / 30 / 25 / 18 / proportional-floored-at-8 cascade the spec states,
and a nonzero resume experience against a found JD requirement never scores
zero. -/
theorem c4_yoe_subscore (jd : YoeVal) (resume_yoe : ℚ) :
    yoe_component jd resume_yoe = yoe_component_spec jd resume_yoe ∧
    (jd ≠ YoeVal.notFound → resume_yoe ≠ 0 → 0 < yoe_component jd resume_yoe) := by
  constructor
  · match jd with
    | YoeVal.notFound => simp [yoe_component, yoe_component_spec]
    | YoeVal.num n =>
      by_cases hr : resume_yoe = 0
      · simp [yoe_component, yoe_component_spec, hr]
      · unfold yoe_component yoe_component_spec
        simp only [hr, or_false, reduceCtorEq, if_false]
        split_ifs <;> first | rfl | linarith
  · intro hj hr
    have h8 := yoe_component_ge_8 jd resume_yoe
    linarith

/-- Witness for C4 at jd_yoe = 4 years, resume_yoe = 1 year. -/
theorem c4_yoe_subscore_witness :
    yoe_component (YoeVal.num 4) 1 = yoe_component_spec (YoeVal.num 4) 1 ∧
    0 < yoe_component (YoeVal.num 4) 1 :=
  ⟨(c4_yoe_subscore (YoeVal.num 4) 1).1,
   (c4_yoe_subscore (YoeVal.num 4) 1).2 (by decide) (by norm_num)⟩

/-- Claim C5: with skill_match_pct in [0,100], semantic_sim in [-1,1],
edu_score in [0,100] and nonnegative experience inputs, the final ATS score
lies in [0,100]; below 50% skill match the (50 - skill_match_pct) * 0.5
penalty is subtracted and the result floored at 0. -/
theorem c5_final_score_bounds (skill_match_pct semantic_sim : ℚ) (jd_yoe : YoeVal)
    (resume_yoe edu_score : ℚ)
    (h1 : 0 ≤ skill_match_pct) (h2 : skill_match_pct ≤ 100)
    (h3 : -1 ≤ semantic_sim) (h4 : semantic_sim ≤ 1)
    (h5 : 0 ≤ edu_score) (h6 : edu_score ≤ 100) (_h7 : 0 ≤ resume_yoe) :
    0 ≤ (calculate_ats_score skill_match_pct semantic_sim jd_yoe resume_yoe edu_score).1 ∧
    (calculate_ats_score skill_match_pct semantic_sim jd_yoe resume_yoe edu_score).1 ≤ 100 ∧
    (skill_match_pct < 50 →
      (calculate_ats_score skill_match_pct semantic_sim jd_yoe resume_yoe edu_score).1 =
        pyRound2 (max (skill_match_pct / 100 * 40 + yoe_component jd_yoe resume_yoe +
          semantic_sim * 20 + edu_score / 100 * 10 -
          (50 - skill_match_pct) * 0.5) 0)) := by
  have hy8 := yoe_component_ge_8 jd_yoe resume_yoe
  have hy30 := yoe_component_le_30 jd_yoe resume_yoe
  have hraw_le :
      skill_match_pct / 100 * 40 + yoe_component jd_yoe resume_yoe +
        semantic_sim * 20 + edu_score / 100 * 10 ≤ 100 := by
    nlinarith
  dsimp only [calculate_ats_score]
  by_cases hp : skill_match_pct < 50
  · simp only [hp, if_true]
    refine ⟨?_, ?_, ?_⟩
    · apply pyRound2_nonneg
      apply pyRound2_nonneg
      exact le_max_right _ 0
    · apply pyRound2_le_100
      have hin : pyRound2 (max (skill_match_pct / 100 * 40 +
          yoe_component jd_yoe resume_yoe + semantic_sim * 20 +
          edu_score / 100 * 10 - (50 - skill_match_pct) * 0.5) 0) ≤ 100 := by
        apply pyRound2_le_100
        apply max_le
        · linarith
        · norm_num
      linarith [hin]
    · intro _
      exact pyRound2_idem _
  · simp only [hp, if_false]
    push_neg at hp
    refine ⟨?_, ?_, ?_⟩
    · apply pyRound2_nonneg
      nlinarith
    · exact pyRound2_le_100 hraw_le
    · exact fun hlt => hlt.elim

/-- Witness for C5 at concrete in-range inputs. -/
theorem c5_final_score_bounds_witness :
    0 ≤ (calculate_ats_score 40 (1/2) (YoeVal.num 2) 1 50).1 ∧
    (calculate_ats_score 40 (1/2) (YoeVal.num 2) 1 50).1 ≤ 100 :=
  ⟨(c5_final_score_bounds 40 (1/2) (YoeVal.num 2) 1 50 (by norm_num) (by norm_num)
      (by norm_num) (by norm_num) (by norm_num) (by norm_num) (by norm_num)).1,
   (c5_final_score_bounds 40 (1/2) (YoeVal.num 2) 1 50 (by norm_num) (by norm_num)
      (by norm_num) (by norm_num) (by norm_num) (by norm_num) (by norm_num)).2.1⟩

/-- Claim C8: whenever the LLM reconciliation call inside
cleanup_merged_entities fails, no error propagates and the result is the
deterministic local fallback: the set-union of the NER-derived and
LLM-derived lists re-filtered through validate_skills and
validate_education. -/
theorem c8_fallback_on_error (e : String)
    (ner_skills ner_education llm_skills llm_education : List String)
    (original_text : String) :
    cleanup_merged_entities (Except.error e) ner_skills ner_education
        llm_skills llm_education original_text =
      local_fallback_spec ner_skills ner_education llm_skills llm_education := rfl

/-- Counterexample to claim C9: on the fallback path, cleanup_merged_entities
keeps both "Python" and "python", two entries equal under case-insensitive
comparison, because the set-union only removes exact duplicates. -/
theorem c9_counterexample :
    (cleanup_merged_entities (Except.error "timeout") ["Python"] [] ["python"] [] "").1 =
      ["Python", "python"] ∧
    ¬ (((cleanup_merged_entities (Except.error "timeout") ["Python"] [] ["python"] [] "").1.map
        pyLower).Nodup) := by
  constructor
  · decide
  · decide

theorem clean_field_nodup_aux (items : List String) : ∀ seen : List String,
    (∀ s ∈ clean_field seen items, pyLower s ∉ seen) ∧
    ((clean_field seen items).map pyLower).Nodup := by
  induction items with
  | nil =>
    intro seen
    exact ⟨by simp [clean_field], by simp [clean_field]⟩
  | cons item rest ih =>
    intro seen
    unfold clean_field
    split
    · exact ih seen
    · split
      · exact ih seen
      · split
        · rename_i hkeep
          obtain ⟨hc, hlen⟩ := hkeep
          have hnotin : pyLower (pyTrim item) ∉ seen := by
            intro hmem
            have : seen.contains (pyLower (pyTrim item)) = true := by
              exact List.elem_iff.mpr hmem
            rw [hc] at this
            exact Bool.false_ne_true this
          constructor
          · intro s hs
            simp only [List.mem_cons] at hs
            rcases hs with rfl | hs
            · exact hnotin
            · intro hmem
              exact ((ih (pyLower (pyTrim item) :: seen)).1 s hs)
                (List.mem_cons_of_mem _ hmem)
          · simp only [List.map_cons, List.nodup_cons]
            refine ⟨?_, (ih (pyLower (pyTrim item) :: seen)).2⟩
            intro hmem
            obtain ⟨s, hs, heq⟩ := List.mem_map.mp hmem
            exact ((ih (pyLower (pyTrim item) :: seen)).1 s hs)
              (by rw [heq]; exact List.mem_cons_self _ _)
        · exact ih seen

/-- Claim C9 amended: the final clean-up pass of combined_extraction leaves no
two entries equal under case-insensitive comparison in any field, in
particular in the skills and education lists it returns; the outputs of
cleanup_merged_entities itself carry no such guarantee. -/
theorem c9_amended_clean_pass_nodup (items : List String) :
    ((clean_field [] items).map pyLower).Nodup :=
  (clean_field_nodup_aux items []).2

theorem normalize_education_cases (l : List String) :
    normalize_education l = none ∨ normalize_education l = some "PhD" ∨
    normalize_education l = some "Masters" ∨ normalize_education l = some "Bachelors" ∨
    normalize_education l = some "Diploma" := by
  unfold normalize_education
  repeat' split
  all_goals simp

theorem normalize_education_eq_none_iff (l : List String) :
    normalize_education l = none ↔ l = [] := by
  unfold normalize_education
  repeat' split
  all_goals simp_all

/-- Claim C7: match_education returns 100 when the JD list normalizes to no
level (the empty list), 50 when the resume list is empty against a nonempty JD
list, and otherwise scores 100 / 60 / 30 by comparing normalized levels in the
order Diploma < Bachelors < Masters < PhD. -/
theorem c7_education_scoring (resume_edu jd_edu : List String) :
    (match_education resume_edu jd_edu).1 = match_education_spec resume_edu jd_edu ∧
    (jd_edu = [] → (match_education resume_edu jd_edu).1 = 100) ∧
    (jd_edu ≠ [] → resume_edu = [] → (match_education resume_edu jd_edu).1 = 50) := by
  refine ⟨?_, ?_, ?_⟩
  · rcases normalize_education_cases jd_edu with hJ | hJ | hJ | hJ | hJ <;>
      rcases normalize_education_cases resume_edu with hR | hR | hR | hR | hR <;>
      simp only [match_education, match_education_spec, hJ, hR] <;> rfl
  · intro h
    have hJ : normalize_education jd_edu = none :=
      (normalize_education_eq_none_iff jd_edu).mpr h
    simp only [match_education, hJ]
  · intro hj hr
    have hR : normalize_education resume_edu = none :=
      (normalize_education_eq_none_iff resume_edu).mpr hr
    rcases normalize_education_cases jd_edu with hJ | hJ | hJ | hJ | hJ
    · exact absurd ((normalize_education_eq_none_iff jd_edu).mp hJ) hj
    all_goals simp only [match_education, hJ, hR]

/-- Witness for C7 on the spec examples: a bachelor resume against a master
JD, an empty JD list, and an empty resume list. -/
theorem c7_education_scoring_witness :
    (match_education ["Bachelor\x27s"] ["Master\x27s"]).1 =
      match_education_spec ["Bachelor\x27s"] ["Master\x27s"] ∧
    (match_education ["Bachelor\x27s"] []).1 = 100 ∧
    (match_education [] ["Master\x27s"]).1 = 50 :=
  ⟨(c7_education_scoring ["Bachelor\x27s"] ["Master\x27s"]).1,
   (c7_education_scoring ["Bachelor\x27s"] []).2.1 rfl,
   (c7_education_scoring [] ["Master\x27s"]).2.2 (by decide) rfl⟩

theorem matchSkillStep_length (sim : String → String → ℚ)
    (resume_skills : List String) (st : List String × List String × List String)
    (s : String) :
    (matchSkillStep sim resume_skills st s).1.length +
      (matchSkillStep sim resume_skills st s).2.1.length =
    st.1.length + st.2.1.length + 1 := by
  obtain ⟨matched, missing, used⟩ := st
  simp only [matchSkillStep]
  cases hf : resume_skills.find? (fun r =>
      !(used.contains (cleanSkill r)) && (cleanSkill r == cleanSkill s)) with
  | some r =>
    simp [List.length_append]
    omega
  | none =>
    rcases hbs : bestSemantic sim used s resume_skills with ⟨bs, br⟩
    simp only [hbs]
    cases hb2 : (if (0.75 : ℚ) ≤ bs then br else none) with
    | some b =>
      simp [hb2, List.length_append]
      omega
    | none =>
      simp [hb2, List.length_append]
      omega

theorem matchSkill_foldl_length (sim : String → String → ℚ)
    (resume_skills : List String) (jd : List String) :
    ∀ st : List String × List String × List String,
      (jd.foldl (matchSkillStep sim resume_skills) st).1.length +
        (jd.foldl (matchSkillStep sim resume_skills) st).2.1.length =
      st.1.length + st.2.1.length + jd.length := by
  induction jd with
  | nil => intro st; simp
  | cons a l ih =>
    intro st
    simp only [List.foldl_cons, List.length_cons]
    rw [ih (matchSkillStep sim resume_skills st a)]
    have := matchSkillStep_length sim resume_skills st a
    omega

/-- Claim C10: match_skills places every JD skill in exactly one of
matched_skills and missing_skills, so the lengths add to the JD skill count,
and the returned percentage lies in [0,100]. -/
theorem c10_match_skills_partition (sim : String → String → ℚ)
    (resume_skills jd_skills : List String) :
    (match_skills sim resume_skills jd_skills).2.1.length +
      (match_skills sim resume_skills jd_skills).2.2.length = jd_skills.length ∧
    0 ≤ (match_skills sim resume_skills jd_skills).1 ∧
    (match_skills sim resume_skills jd_skills).1 ≤ 100 := by
  unfold match_skills
  split
  · rename_i h
    refine ⟨by simp [h], by norm_num, by norm_num⟩
  · split
    · refine ⟨by simp, by norm_num, by norm_num⟩
    · rename_i hjd _hres
      have hfold := matchSkill_foldl_length sim resume_skills jd_skills ([], [], [])
      simp only [List.length_nil, Nat.zero_add] at hfold
      dsimp only
      refine ⟨by simpa using hfold, ?_, ?_⟩
      · apply pyRound2_nonneg
        positivity
      · apply pyRound2_le_100
        have hL : 0 < jd_skills.length := List.length_pos.mpr hjd
        have hLq : (0 : ℚ) < (jd_skills.length : ℚ) := by exact_mod_cast hL
        have hm : (jd_skills.foldl (matchSkillStep sim resume_skills)
            ([], [], [])).1.length ≤ jd_skills.length := by omega
        have hdiv : ((jd_skills.foldl (matchSkillStep sim resume_skills)
            ([], [], [])).1.length : ℚ) / (jd_skills.length : ℚ) ≤ 1 := by
          rw [div_le_one hLq]
          exact_mod_cast hm
        nlinarith

theorem pyMaxByMin_min (t : List YoeClaim) :
    ∀ h : YoeClaim, (pyMaxByMin h t).min = maxMinFrom h.min t := by
  induction t with
  | nil => intro h; rfl
  | cons x xs ih =>
    intro h
    unfold pyMaxByMin maxMinFrom
    simp only [List.foldl_cons]
    have step : (if x.min > h.min then x else h).min = max h.min x.min := by
      split <;> omega
    rw [show (List.foldl (fun b x => if x.min > b.min then x else b) (if x.min > h.min then x else h) xs) = pyMaxByMin (if x.min > h.min then x else h) xs from rfl]
    rw [ih, step]
    rfl

theorem pyMaxByMin_mem (t : List YoeClaim) :
    ∀ h : YoeClaim, pyMaxByMin h t ∈ h :: t := by
  induction t with
  | nil => intro h; exact List.mem_singleton.mpr rfl
  | cons x xs ih =>
    intro h
    have hstep : pyMaxByMin h (x :: xs) = pyMaxByMin (if x.min > h.min then x else h) xs := rfl
    rw [hstep]
    have := ih (if x.min > h.min then x else h)
    rcases List.mem_cons.mp this with heq | hmem
    · rw [heq]
      split
      · exact List.mem_cons_of_mem _ (List.mem_cons_self _ _)
      · exact List.mem_cons_self _ _
    · exact List.mem_cons_of_mem _ (List.mem_cons_of_mem _ hmem)

theorem le_maxMinFrom (t : List YoeClaim) : ∀ a : Nat, a ≤ maxMinFrom a t := by
  induction t with
  | nil => intro a; exact Nat.le_refl a
  | cons x xs ih =>
    intro a
    unfold maxMinFrom
    simp only [List.foldl_cons]
    exact le_trans (Nat.le_max_left a x.min) (ih (max a x.min))

theorem mem_le_maxMinFrom (t : List YoeClaim) :
    ∀ a : Nat, ∀ c ∈ t, c.min ≤ maxMinFrom a t := by
  induction t with
  | nil => intro _ c hc; exact absurd hc (List.not_mem_nil c)
  | cons x xs ih =>
    intro a c hc
    unfold maxMinFrom
    simp only [List.foldl_cons]
    rcases List.mem_cons.mp hc with rfl | hmem
    · exact le_trans (Nat.le_max_right a c.min) (le_maxMinFrom xs _)
    · exact ih (max a x.min) c hmem

theorem maxMinFrom_le (t : List YoeClaim) :
    ∀ a n : Nat, a ≤ n → (∀ c ∈ t, c.min ≤ n) → maxMinFrom a t ≤ n := by
  induction t with
  | nil => intro a n ha _; exact ha
  | cons x xs ih =>
    intro a n ha hall
    unfold maxMinFrom
    simp only [List.foldl_cons]
    exact ih (max a x.min) n
      (Nat.max_le.mpr ⟨ha, hall x (List.mem_cons_self _ _)⟩)
      (fun c hc => hall c (List.mem_cons_of_mem _ hc))

theorem maxMin_cons (c : YoeClaim) (rest : List YoeClaim) :
    maxMin (c :: rest) = maxMinFrom c.min rest := by
  unfold maxMin maxMinFrom
  simp only [List.foldl_cons, Nat.zero_max]

theorem found_yoe_empty : found_yoe "" = [] := rfl

/-- Claim C1: whenever at least one of the five experience pattern families
produces a claim on a JD text, extract_yoe_from_jd reports found and min_yoe
equal to the maximum of the accumulated minima; with no claim it reports not
found. -/
theorem c1_max_min_selection (jd_text : String) :
    (found_yoe jd_text ≠ [] →
      (extract_yoe_from_jd jd_text).found = true ∧
      (extract_yoe_from_jd jd_text).min_yoe = YoeVal.num (maxMin (found_yoe jd_text))) ∧
    (found_yoe jd_text = [] →
      (extract_yoe_from_jd jd_text).found = false ∧
      (extract_yoe_from_jd jd_text).min_yoe = YoeVal.notFound) := by
  by_cases hE : jd_text = ""
  · subst hE
    refine ⟨fun h => absurd found_yoe_empty h, fun _ => ⟨rfl, rfl⟩⟩
  · constructor
    · intro hne
      unfold extract_yoe_from_jd
      rw [if_neg hE]
      cases hF : found_yoe jd_text with
      | nil => exact absurd hF hne
      | cons c rest =>
        refine ⟨rfl, ?_⟩
        simp only
        rw [pyMaxByMin_min, maxMin_cons]
    · intro hnil
      unfold extract_yoe_from_jd
      rw [if_neg hE, hnil]
      exact ⟨rfl, rfl⟩

set_option maxRecDepth 100000 in
/-- Witness for C1 on the JD text "3 years", where pattern 1 accumulates the
single claim of 3 years. -/
theorem c1_max_min_selection_witness :
    (extract_yoe_from_jd "3 years").found = true ∧
    (extract_yoe_from_jd "3 years").min_yoe = YoeVal.num (maxMin (found_yoe "3 years")) :=
  (c1_max_min_selection "3 years").1 (by decide)

set_option maxRecDepth 100000 in
/-- Counterexample to claim C6: the JD text "2+ years or 10 years" contains
the phrase "2+ years", yet extract_yoe_from_jd returns min_yoe = 10 with
is_plus = false, because the larger plain mention wins the selection. -/
theorem c6_counterexample :
    containsSub "2+ years or 10 years" "2+ years" = true ∧
    ¬ ((extract_yoe_from_jd "2+ years or 10 years").min_yoe = YoeVal.num 2 ∧
       (extract_yoe_from_jd "2+ years or 10 years").is_plus = true) ∧
    (extract_yoe_from_jd "2+ years or 10 years").min_yoe = YoeVal.num 10 ∧
    (extract_yoe_from_jd "2+ years or 10 years").is_plus = false := by
  refine ⟨by decide, by decide, by decide, by decide⟩

/-- Claim C6 amended: when the pattern scan accumulates a plus claim of N
years (as a bare "N+ years" phrase produces), no accumulated claim demands
more than N years, and every claim of exactly N years carries the plus
marker, extract_yoe_from_jd returns min_yoe = N with is_plus = true. -/
theorem c6_amended_plus_selection (jd_text : String) (n : Nat)
    (h1 : (⟨n, none, false, true⟩ : YoeClaim) ∈ found_yoe jd_text)
    (h2 : ∀ c ∈ found_yoe jd_text, c.min ≤ n)
    (h3 : ∀ c ∈ found_yoe jd_text, c.min = n → c.is_plus = true) :
    (extract_yoe_from_jd jd_text).min_yoe = YoeVal.num n ∧
    (extract_yoe_from_jd jd_text).is_plus = true := by
  have hE : jd_text ≠ "" := by
    intro h
    rw [h, found_yoe_empty] at h1
    exact absurd h1 (List.not_mem_nil _)
  unfold extract_yoe_from_jd
  rw [if_neg hE]
  cases hF : found_yoe jd_text with
  | nil =>
    rw [hF] at h1
    exact absurd h1 (List.not_mem_nil _)
  | cons c rest =>
    rw [hF] at h1 h2 h3
    have hmem := pyMaxByMin_mem rest c
    have hminle : (pyMaxByMin c rest).min ≤ n := by
      rw [pyMaxByMin_min]
      exact maxMinFrom_le rest c.min n (h2 c (List.mem_cons_self _ _))
        (fun x hx => h2 x (List.mem_cons_of_mem _ hx))
    have hnle : n ≤ (pyMaxByMin c rest).min := by
      rw [pyMaxByMin_min]
      rcases List.mem_cons.mp h1 with heq | hmem2
      · rw [← heq]
        exact le_maxMinFrom rest _
      · exact mem_le_maxMinFrom rest c.min _ hmem2
    have hmin : (pyMaxByMin c rest).min = n := le_antisymm hminle hnle
    refine ⟨?_, ?_⟩
    · simp only
      rw [hmin]
    · simp only
      exact h3 _ hmem hmin

set_option maxRecDepth 100000 in
/-- Witness for the amended C6 on the JD text "5+ years". -/
theorem c6_amended_plus_selection_witness :
    (extract_yoe_from_jd "5+ years").min_yoe = YoeVal.num 5 ∧
    (extract_yoe_from_jd "5+ years").is_plus = true :=
  c6_amended_plus_selection "5+ years" 5 (by decide) (by decide) (by decide)

set_option maxRecDepth 100000 in
/-- Claim C2 failing input: on this JD text, extract_requirements_section
finds a qualifications section whose bounded year scan yields 2 years, yet
extract_yoe_from_jd reports 30 years, picked up from the company history
outside the section, because the function searches the full text. -/
theorem c2_requirements_section_unused :
    ((extract_requirements_section c2JdText).map (fun s => maxMin (found_yoe s))) =
      some 2 ∧
    (extract_yoe_from_jd c2JdText).min_yoe = YoeVal.num 30 := by
  refine ⟨by decide, by decide⟩

set_option maxRecDepth 100000 in
/-- Claim C3 failing input: in the experience section
"EXPERIENCE May 2023 to Present" evaluated at October 2026, pattern 2 counts
41 months for the mention and pattern 4 counts the same mention again as 46
months, because pattern 2 records no spans for the overlap check; the total
reported is 7.2 years instead of the single-count 41 months = 3.4 years. -/
theorem c3_present_range_double_count :
    totalP2 "EXPERIENCE\nMay 2023 to Present\n".toList 2026 10 = 41 ∧
    totalP4 "EXPERIENCE\nMay 2023 to Present\n".toList 2026 10 = 46 ∧
    totalP1 "EXPERIENCE\nMay 2023 to Present\n".toList = 0 ∧
    extract_total_experience "EXPERIENCE\nMay 2023 to Present\nEDUCATION" 2026 10 = 7.2 := by
  have hsec : expSection "EXPERIENCE\nMay 2023 to Present\nEDUCATION" =
      some "EXPERIENCE\nMay 2023 to Present\n".toList := by decide
  have h1 : totalP1 "EXPERIENCE\nMay 2023 to Present\n".toList = 0 := by decide
  have h2 : totalP2 "EXPERIENCE\nMay 2023 to Present\n".toList 2026 10 = 41 := by decide
  have h4 : totalP4 "EXPERIENCE\nMay 2023 to Present\n".toList 2026 10 = 46 := by decide
  refine ⟨h2, h4, h1, ?_⟩
  unfold extract_total_experience
  rw [hsec]
  simp only [h1, h2, h4]
  norm_num
  unfold pyRound1 rhe
  norm_num [Rat.floor_def]

end ATS
